import Mathlib

/-!
Verification development for the procedural marble-game core
(`src/procedural/PathGenerator.ts`, `src/procedural/ChunkManager.ts`,
`src/physics/MarblePhysics.ts`).

The TypeScript sources are shallowly embedded here:

* JavaScript `number` is modelled as a real number (`ℝ`); `Math.sin`,
  `Math.cos`, `Math.sqrt` and `Math.PI` become `Real.sin`, `Real.cos`,
  `Real.sqrt` and `Real.pi`.
* `THREE.Vector3` is a record of three reals; the only three.js vector
  methods the sources use (`add`, `sub`, `multiplyScalar`, `length`,
  `normalize`, `distanceTo`, `applyAxisAngle` with the fixed axis
  `(0,1,0)`) are embedded as functions below.  `applyAxisAngle` with unit
  axis `(0,1,0)` is the rotation about the +y axis.
  Three.js `normalize` divides by `length() || 1`, i.e. it leaves the
  zero vector unchanged.
* Class instances become state records; a mutating method becomes a
  function from state to state.  Ambient environment inputs are explicit
  parameters: `Math.random()` at construction time and `Date.now()`
  inside `MarblePhysics` are passed in as real-valued arguments.
* Rendering-only data (three.js meshes, materials, the scene graph, and
  the visual Euler rotation of the marble mesh) is out of scope per §1 of
  the spec and carries no gameplay state; it is omitted from the records.
  The `console.log` calls and the TypeScript `try/catch` around chunk
  generation are likewise dropped: every embedded operation is total.
* `PathGenerator.initializeNoise` globally replaces `Math.random` with a
  seeded generator, but `generateChunk` never calls `Math.random` (it only
  uses `Math.sin`/`Math.cos` of deterministic quantities), so the replaced
  generator is dead state and is not part of the embedded record.
-/

noncomputable section

open Classical

/-- Embedding of `THREE.Vector3`: a record of three JS numbers (reals). -/
structure Vec3 where
  x : ℝ
  y : ℝ
  z : ℝ
deriving DecidableEq

namespace Vec3

def add (a b : Vec3) : Vec3 := ⟨a.x + b.x, a.y + b.y, a.z + b.z⟩

def sub (a b : Vec3) : Vec3 := ⟨a.x - b.x, a.y - b.y, a.z - b.z⟩

def smul (c : ℝ) (v : Vec3) : Vec3 := ⟨c * v.x, c * v.y, c * v.z⟩

/-- `Vector3.length()`. -/
def len (v : Vec3) : ℝ := Real.sqrt (v.x ^ 2 + v.y ^ 2 + v.z ^ 2)

/-- `Vector3.normalize()`: three.js divides by `length() || 1`, so the zero
vector is left unchanged. -/
def normalize (v : Vec3) : Vec3 := if len v = 0 then v else smul (1 / len v) v

/-- `Vector3.distanceTo(b)`. -/
def distanceTo (a b : Vec3) : ℝ := len (sub a b)

/-- `Vector3.applyAxisAngle(new THREE.Vector3(0, 1, 0), θ)`: rotation about
the +y axis by `θ` (the only axis used by the sources). -/
def applyAxisAngleY (θ : ℝ) (v : Vec3) : Vec3 :=
  ⟨v.x * Real.cos θ + v.z * Real.sin θ, v.y, -v.x * Real.sin θ + v.z * Real.cos θ⟩

end Vec3

/-! ## PathGenerator (`src/procedural/PathGenerator.ts`) -/

/-- Embedding of the `PathPoint` interface. -/
structure PathPoint where
  position : Vec3
  width : ℝ
  banking : ℝ
  biome : String
deriving DecidableEq

/-- Embedding of the `PathChunk` interface.  The `meshes` field (three.js
render objects) is rendering-only and omitted. -/
structure PathChunk where
  id : String
  points : List PathPoint
  segments : List (List PathPoint)
  startPosition : Vec3
  endPosition : Vec3
  length : ℝ
deriving DecidableEq

/-- Mutable fields of the `PathGenerator` class (the generation cursor). -/
structure PathGenState where
  seed : ℝ
  currentDistance : ℝ
  lastDirection : Vec3
  lastPosition : Vec3
  difficulty : ℝ
  noiseOffsetX : ℝ
  noiseOffsetZ : ℝ

namespace PathGenerator

-- Configuration constants of the class (fixed field initializers).
def chunkLength : ℝ := 200
def pathWidth : ℝ := 8
def worldElevationScale : ℝ := 0.0008
def worldCurvatureScale : ℝ := 0.0005
def localVariationScale : ℝ := 0.003
def minElevation : ℝ := -50
def maxElevation : ℝ := 100
/-- `const segmentCount = 50` in `generateChunk`. -/
def segmentCount : ℕ := 50
/-- `const segmentLength = this.chunkLength / segmentCount`. -/
def segmentLength : ℝ := chunkLength / 50

/-- The constructor `constructor(seed?: number)`.  `seedArg` is the optional
`seed` parameter and `rand` the ambient `Math.random()` value consumed when
the parameter is absent or falsy.  JS `seed || Math.random() * 1000000`
falls back to the random seed when `seed` is `undefined` or `0`. -/
def mk (seedArg : Option ℝ) (rand : ℝ) : PathGenState :=
  let s : ℝ := match seedArg with
    | some v => if v ≠ 0 then v else rand * 1000000
    | none => rand * 1000000
  { seed := s
    currentDistance := 0
    lastDirection := ⟨0, 0, -1⟩
    lastPosition := ⟨0, 0, 0⟩
    difficulty := 0
    noiseOffsetX := s * 0.001
    noiseOffsetZ := s * 0.0013 }

/-- `getCurvatureAtWorldPosition(worldPos)`. -/
def getCurvatureAtWorldPosition (st : PathGenState) (worldPos : Vec3) : ℝ :=
  let x := worldPos.x + st.noiseOffsetX
  let z := worldPos.z + st.noiseOffsetZ
  let largeCurves := Real.sin (x * worldCurvatureScale * Real.pi * 2) *
    Real.cos (z * worldCurvatureScale * Real.pi * 2) * 0.25
  let mediumCurves := Real.sin (x * worldCurvatureScale * 3.1 * Real.pi * 2) *
    Real.cos (z * worldCurvatureScale * 2.7 * Real.pi * 2) * 0.15
  let smallCurves := Real.sin (x * localVariationScale * 2.1 * Real.pi * 2) *
    Real.cos (z * localVariationScale * 1.8 * Real.pi * 2) * 0.08
  let spiralCurves := Real.sin (x * worldCurvatureScale * 4.7 * Real.pi * 2 + z * 0.1) * 0.12
  largeCurves + mediumCurves + smallCurves + spiralCurves

/-- `getElevationAtWorldPosition(worldPos)`. -/
def getElevationAtWorldPosition (st : PathGenState) (worldPos : Vec3) : ℝ :=
  let x := worldPos.x + st.noiseOffsetX
  let z := worldPos.z + st.noiseOffsetZ
  let largeElevation := Real.sin (x * worldElevationScale * Real.pi * 2) *
    Real.cos (z * worldElevationScale * Real.pi * 2) * 8
  let mediumElevation := Real.sin (x * worldElevationScale * 2.7 * Real.pi * 2) *
    Real.cos (z * worldElevationScale * 1.9 * Real.pi * 2) * 3
  let localElevation := Real.sin (x * localVariationScale * 1.5 * Real.pi * 2) *
    Real.cos (z * localVariationScale * 1.2 * Real.pi * 2) * 1
  largeElevation + mediumElevation + localElevation

/-- `getPathWidthAtDistance(_distance)`: constant full width. -/
def getPathWidthAtDistance (_distance : ℝ) : ℝ := pathWidth

/-- `const chunkVariation = Math.sin(this.currentDistance * 0.001) * 0.1`
(computed once per `generateChunk` call). -/
def chunkVariation (st : PathGenState) : ℝ := Real.sin (st.currentDistance * 0.001) * 0.1

/-- The loop-local cursor of `generateChunk` (`currentPos`, `currentDir`). -/
structure Cursor where
  pos : Vec3
  dir : Vec3

/-- The `curvature` value of loop iteration `i` of `generateChunk`, evaluated
at the cursor position `pos` (the `worldPos` snapshot taken at the top of the
iteration): `getCurvatureAtWorldPosition(worldPos) + chunkVariation *
Math.sin(t * Math.PI * 4)` with `t = i / segmentCount`. -/
def curvatureAt (st : PathGenState) (i : ℕ) (pos : Vec3) : ℝ :=
  getCurvatureAtWorldPosition st pos +
    chunkVariation st * Real.sin ((i : ℝ) / 50 * Real.pi * 4)

/-- One iteration of the point-generation loop of `generateChunk`, acting on
the cursor: rotate `currentDir` about the y axis by `curvature * 0.035` and
renormalize, advance `currentPos` by `segmentLength` along the new direction,
then overwrite `currentPos.y` with the clamped elevation sampled at the
iteration's `worldPos` snapshot. -/
def cursorStep (st : PathGenState) (i : ℕ) (c : Cursor) : Cursor :=
  let curvature := curvatureAt st i c.pos
  let turnAngle := curvature * 0.035
  let d := Vec3.normalize (Vec3.applyAxisAngleY turnAngle c.dir)
  let elevation := getElevationAtWorldPosition st c.pos
  { pos := ⟨c.pos.x + segmentLength * d.x,
            max minElevation (min maxElevation elevation),
            c.pos.z + segmentLength * d.z⟩
    dir := d }

/-- The cursor before loop iteration `i` of `generateChunk`: iteration starts
from the persisted `lastPosition` / `lastDirection`. -/
def cursorAt (st : PathGenState) : ℕ → Cursor
  | 0 => ⟨st.lastPosition, st.lastDirection⟩
  | i + 1 => cursorStep st i (cursorAt st i)

/-- The `PathPoint` pushed by loop iteration `i` of `generateChunk`:
position is the cursor position after the iteration's move, `width` comes
from `getPathWidthAtDistance`, `banking = Math.abs(curvature) * 0.1`, and
the biome is the constant `'default'`. -/
def pointAt (st : PathGenState) (i : ℕ) : PathPoint :=
  let c := cursorAt st i
  let curvature := curvatureAt st i c.pos
  { position := (cursorStep st i c).pos
    width := getPathWidthAtDistance (st.currentDistance + (i : ℝ) / 50 * chunkLength)
    banking := |curvature| * 0.1
    biome := "default" }

/-- The `points` array built by the loop `for (let i = 0; i <= segmentCount;
i++)`: 51 points, one per iteration. -/
def genPoints (st : PathGenState) : List PathPoint :=
  (List.range (segmentCount + 1)).map (pointAt st)

/-- `createPathWithGaps(points)`: the loop pushes every point into a single
segment (the chill-gameplay variant creates no gaps), then appends the
original array if no segment was produced. -/
def createPathWithGaps (points : List PathPoint) : List (List PathPoint) :=
  let currentSegment := points.foldl (fun seg p => seg ++ [p]) []
  let segments : List (List PathPoint) :=
    if currentSegment.length > 0 then [currentSegment] else []
  if segments.length = 0 then segments ++ [points] else segments

/-- Default used to embed JS array indexing `points[k]` (never reached:
`points` always has 51 elements). -/
def dummyPoint : PathPoint := ⟨⟨0, 0, 0⟩, 0, 0, ""⟩

/-- `generateChunk(chunkId)`: builds the 51 points, updates the persisted
cursor (`lastPosition`, `lastDirection`, `currentDistance`, `difficulty`),
applies the end-of-chunk direction smoothing blend, and returns the chunk
together with the mutated generator state. -/
def generateChunk (st : PathGenState) (chunkId : String) : PathChunk × PathGenState :=
  let points := genPoints st
  -- this.lastPosition = points[points.length - 1].position.clone()
  let lastPosition' := (points.getD (points.length - 1) dummyPoint).position
  -- this.lastDirection = currentDir.clone()  (direction after the final iteration)
  let rawDirection := (cursorAt st (segmentCount + 1)).dir
  let currentDistance' := st.currentDistance + chunkLength
  let difficulty' := min (currentDistance' / 10000) 1
  -- if (points.length > 3) blend the directions of the last three points
  let lastDirection' :=
    if 3 < points.length then
      let p1 := (points.getD (points.length - 3) dummyPoint).position
      let p2 := (points.getD (points.length - 2) dummyPoint).position
      let p3 := (points.getD (points.length - 1) dummyPoint).position
      let dir1 := Vec3.normalize (Vec3.sub p2 p1)
      let dir2 := Vec3.normalize (Vec3.sub p3 p2)
      Vec3.normalize (Vec3.add (Vec3.smul 0.3 dir1) (Vec3.smul 0.7 dir2))
    else rawDirection
  ({ id := chunkId
     points := points
     segments := createPathWithGaps points
     startPosition := (points.getD 0 dummyPoint).position
     endPosition := (points.getD (points.length - 1) dummyPoint).position
     length := chunkLength },
   { st with
     currentDistance := currentDistance'
     difficulty := difficulty'
     lastPosition := lastPosition'
     lastDirection := lastDirection' })

/-- Iterated generation on one instance: the generator state after `n`
successive `generateChunk` calls (chunk ids do not influence the state). -/
def iterGen (st : PathGenState) : ℕ → PathGenState
  | 0 => st
  | n + 1 => (generateChunk (iterGen st n) ("c" ++ toString n)).2

end PathGenerator

/-! ## ChunkManager (`src/procedural/ChunkManager.ts`)

`activeChunks: Map<string, PathChunk>` is embedded as an association list in
insertion order (JS `Map` iterates in insertion order).  Scene mutation and
geometry/material disposal in `loadChunk`/`unloadChunk` are rendering-only
and omitted.  The `-Infinity`-seeded "find furthest" scans are embedded with
an `Option` accumulator: every real distance exceeds `-Infinity`, so the
first entry always replaces the initial sentinel, and an empty falsy
`furthestChunkId` corresponds to `none`. -/

structure ChunkManagerState where
  gen : PathGenState
  activeChunks : List (String × PathChunk)
  nextChunkId : ℕ

namespace ChunkManager

def maxActiveChunks : ℕ := 5
def chunkLoadDistance : ℝ := 400
def chunkUnloadDistance : ℝ := 600

/-- `constructor(scene, pathGenerator)` (the scene is rendering-only). -/
def mk (g : PathGenState) : ChunkManagerState :=
  { gen := g, activeChunks := [], nextChunkId := 0 }

/-- JS `Map.set`: replace the value when the key is present, else append. -/
def mapSet (m : List (String × PathChunk)) (k : String) (v : PathChunk) :
    List (String × PathChunk) :=
  if m.any (fun p => p.1 = k) then
    m.map (fun p => if p.1 = k then (k, v) else p)
  else m ++ [(k, v)]

/-- JS `Map.delete` (keys are unique, so deleting the first match). -/
def mapDelete (m : List (String × PathChunk)) (k : String) :
    List (String × PathChunk) :=
  m.eraseP (fun p => decide (p.1 = k))

/-- `generateNextChunk()`: build the id `chunk_${nextChunkId++}`, generate the
chunk, and `loadChunk` it (store it under `chunk.id`; scene insertion is
rendering-only).  The embedded `generateChunk` is total, so the `try/catch`
has no failing branch to model. -/
def generateNextChunk (s : ChunkManagerState) : ChunkManagerState :=
  let chunkId := "chunk_" ++ toString s.nextChunkId
  let res := PathGenerator.generateChunk s.gen chunkId
  { s with
    gen := res.2
    nextChunkId := s.nextChunkId + 1
    activeChunks := mapSet s.activeChunks res.1.id res.1 }

/-- `initialize()`: generate 3 initial chunks. -/
def initChunks (s : ChunkManagerState) : ChunkManagerState :=
  generateNextChunk (generateNextChunk (generateNextChunk s))

/-- The scan of `checkForwardChunkLoading`: the resident chunk whose
`endPosition` is furthest from the marble (strict `>`, first-seen wins on
ties, starting from the `-Infinity` sentinel). -/
def furthestAhead (pos : Vec3) (m : List (String × PathChunk)) : Option PathChunk :=
  m.foldl
    (fun acc p =>
      match acc with
      | none => some p.2
      | some best =>
        if Vec3.distanceTo pos p.2.endPosition > Vec3.distanceTo pos best.endPosition then
          some p.2
        else some best)
    none

/-- `checkForwardChunkLoading(marblePosition)`. -/
def checkForwardChunkLoading (pos : Vec3) (s : ChunkManagerState) : ChunkManagerState :=
  match furthestAhead pos s.activeChunks with
  | none => s
  | some furthestChunk =>
    if Vec3.distanceTo pos furthestChunk.endPosition < chunkLoadDistance then
      generateNextChunk s
    else s

/-- `checkBackwardChunkUnloading(marblePosition)`: collect the ids of chunks
whose `startPosition` is further than `chunkUnloadDistance` from the marble,
then unload each collected id. -/
def checkBackwardChunkUnloading (pos : Vec3) (s : ChunkManagerState) : ChunkManagerState :=
  let chunksToUnload :=
    (s.activeChunks.filter
      (fun p => decide (Vec3.distanceTo pos p.2.startPosition > chunkUnloadDistance))).map
      Prod.fst
  { s with activeChunks := chunksToUnload.foldl (fun m id => mapDelete m id) s.activeChunks }

/-- One step of the scan inside `enforceMemoryLimits`: keep the entry whose
`startPosition` is furthest from the origin (strict `>`, first-seen wins on
ties; the `-Infinity`/empty-id sentinel is embedded as `none`, which any
real distance beats). -/
def ffoStep (acc : Option (String × PathChunk)) (p : String × PathChunk) :
    Option (String × PathChunk) :=
  match acc with
  | none => some p
  | some best =>
    if Vec3.len p.2.startPosition > Vec3.len best.2.startPosition then some p
    else some best

/-- The full `for (const [id, chunk] of this.activeChunks.entries())` scan of
`enforceMemoryLimits`. -/
def furthestFromOrigin (m : List (String × PathChunk)) : Option (String × PathChunk) :=
  m.foldl ffoStep none

theorem foldl_ffoStep_mem (l : List (String × PathChunk)) :
    ∀ (acc : Option (String × PathChunk)) (q : String × PathChunk),
      l.foldl ffoStep acc = some q → q ∈ l ∨ acc = some q := by
  induction l with
  | nil => intro acc q hq; exact Or.inr hq
  | cons a l ih =>
    intro acc q hq
    rcases ih (ffoStep acc a) q hq with h | h
    · exact Or.inl (List.mem_cons_of_mem a h)
    · cases acc with
      | none =>
        simp only [ffoStep, Option.some.injEq] at h
        exact Or.inl (h ▸ List.mem_cons_self a l)
      | some best =>
        simp only [ffoStep] at h
        split at h
        · cases h; exact Or.inl (List.mem_cons_self a l)
        · exact Or.inr h

theorem furthestFromOrigin_mem (m : List (String × PathChunk))
    (p : String × PathChunk) (hp : furthestFromOrigin m = some p) : p ∈ m := by
  rcases foldl_ffoStep_mem m none p hp with h | h
  · exact h
  · exact absurd h (by simp)

theorem foldl_ffoStep_some (l : List (String × PathChunk)) :
    ∀ best : String × PathChunk, (l.foldl ffoStep (some best)).isSome := by
  induction l with
  | nil => intro best; rfl
  | cons a l ih =>
    intro best
    show (l.foldl ffoStep (ffoStep (some best) a)).isSome
    by_cases h : Vec3.len a.2.startPosition > Vec3.len best.2.startPosition
    · rw [show ffoStep (some best) a = some a from by simp [ffoStep, h]]
      exact ih a
    · rw [show ffoStep (some best) a = some best from by simp [ffoStep, h]]
      exact ih best

theorem furthestFromOrigin_isSome (m : List (String × PathChunk)) (hm : m ≠ []) :
    (furthestFromOrigin m).isSome := by
  match m with
  | [] => exact absurd rfl hm
  | a :: l => exact foldl_ffoStep_some l a

theorem length_mapDelete_lt (m : List (String × PathChunk))
    (p : String × PathChunk) (hp : p ∈ m) : (mapDelete m p.1).length < m.length := by
  unfold mapDelete
  have h := List.length_eraseP_add_one (p := fun q => decide (q.1 = p.1)) hp (by simp)
  omega

/-- `enforceMemoryLimits()`: while the resident count exceeds
`maxActiveChunks`, unload the entry furthest from the origin; the empty
`furthestChunkId` safety break corresponds to the `none` branch. -/
def enforceMemoryLimits (m : List (String × PathChunk)) : List (String × PathChunk) :=
  if m.length ≤ maxActiveChunks then m
  else
    match h : furthestFromOrigin m with
    | some p => enforceMemoryLimits (mapDelete m p.1)
    | none => m
termination_by m.length
decreasing_by
  exact length_mapDelete_lt m p (furthestFromOrigin_mem m p h)

/-- `update(marblePosition)`: forward load check, backward unload check, then
memory-limit enforcement. -/
def update (pos : Vec3) (s : ChunkManagerState) : ChunkManagerState :=
  let s1 := checkForwardChunkLoading pos s
  let s2 := checkBackwardChunkUnloading pos s1
  { s2 with activeChunks := enforceMemoryLimits s2.activeChunks }

/-- `getActiveChunkCount()`. -/
def getActiveChunkCount (s : ChunkManagerState) : ℕ := s.activeChunks.length

end ChunkManager

/-! ## MarblePhysics (`src/physics/MarblePhysics.ts`)

The marble `THREE.Mesh` is embedded as its position; the mesh's visual Euler
rotation (`marble.rotation`, `rotateOnWorldAxis`) is rendering-only state
(spec §1 puts the scene graph out of scope) and is omitted.  `Date.now()` is
an ambient clock value passed to `update` as the explicit argument `now`. -/

/-- The marble mesh, reduced to its gameplay-relevant state. -/
structure Marble where
  position : Vec3
deriving DecidableEq

/-- The `InputState` interface. -/
structure InputState where
  x : ℝ
  z : ℝ
  active : Bool
  jump : Bool

/-- The fields of the `MarblePhysics` class. -/
structure MarbleState where
  marble : Option Marble
  velocity : Vec3
  angularVelocity : Vec3
  isFalling : Bool
  fallStartTime : ℝ
  canJump : Bool
  jumpCooldown : ℝ
  lastSafePosition : Vec3
  checkpointUpdateTimer : ℝ
  pathSurfaceHeight : ℝ

namespace MarblePhysics

-- Physics constants (fixed field initializers).
def gravity : ℝ := 0.015
def friction : ℝ := 0.985
def airResistance : ℝ := 0.998
def acceleration : ℝ := 0.008
def maxSpeed : ℝ := 0.4
def bounceFactor : ℝ := 0.3
def marbleRadius : ℝ := 0.3
def groundLevel : ℝ := 0.3
def jumpForce : ℝ := 0.3
def jumpCooldownTime : ℝ := 0.5
def checkpointUpdateInterval : ℝ := 0.5

/-- `jump()`: set the vertical velocity to the jump impulse, start the
cooldown, and add the forward (negative-z) boost. -/
def jump (s : MarbleState) : MarbleState :=
  { s with
    velocity := ⟨s.velocity.x, jumpForce, s.velocity.z - 0.05⟩
    jumpCooldown := jumpCooldownTime
    canJump := false }

/-- `handleJumping(input, deltaTime)`: tick the cooldown down, recompute
`canJump` from the marble bottom against the supplied path-surface height,
and jump when requested and permitted.  (`this.marble!` is guarded by
`update`; the `none` branch is unreachable there.) -/
def handleJumping (input : InputState) (deltaTime : ℝ) (s : MarbleState) : MarbleState :=
  match s.marble with
  | none => s
  | some m =>
    let jumpCooldown' := if s.jumpCooldown > 0 then s.jumpCooldown - deltaTime else s.jumpCooldown
    let marbleBottom := m.position.y - marbleRadius
    let isOnGround : Bool := marbleBottom ≤ s.pathSurfaceHeight + 0.1
    let canJump' : Bool := isOnGround && decide (jumpCooldown' ≤ 0)
    let s' := { s with jumpCooldown := jumpCooldown', canJump := canJump' }
    if input.jump && canJump' then jump s' else s'

/-- `applyInputForces(input, deltaTime)`. -/
def applyInputForces (input : InputState) (deltaTime : ℝ) (s : MarbleState) : MarbleState :=
  if !input.active then s
  else
    { s with
      velocity := ⟨s.velocity.x + input.x * acceleration * deltaTime * 60,
                   s.velocity.y,
                   s.velocity.z + input.z * acceleration * deltaTime * 60⟩ }

/-- `applyGravity(deltaTime)`. -/
def applyGravity (deltaTime : ℝ) (s : MarbleState) : MarbleState :=
  { s with velocity := ⟨s.velocity.x, s.velocity.y - gravity * deltaTime * 60, s.velocity.z⟩ }

/-- `applyFriction()`: the grounded test compares the marble's raw `y`
against the fixed `groundLevel + 0.1`; grounded velocity is scaled
componentwise (horizontal by `friction`, vertical by `0.95`), airborne
velocity is scaled as a whole by `airResistance`. -/
def applyFriction (s : MarbleState) : MarbleState :=
  match s.marble with
  | none => s
  | some m =>
    if m.position.y ≤ groundLevel + 0.1 then
      { s with velocity := ⟨s.velocity.x * friction, s.velocity.y * 0.95, s.velocity.z * friction⟩ }
    else
      { s with velocity := Vec3.smul airResistance s.velocity }

/-- `limitSpeed()`: clamp the horizontal speed to `maxSpeed` preserving
direction, and the vertical speed to the terminal velocity `1.0` preserving
sign (`Math.sign` embedded as `Real.sign`; both vanish at `0`, which the
`|velocity.y| > 1` guard excludes anyway). -/
def limitSpeed (s : MarbleState) : MarbleState :=
  let h := Real.sqrt (s.velocity.x ^ 2 + s.velocity.z ^ 2)
  let v1 : Vec3 :=
    if h > maxSpeed then
      ⟨s.velocity.x / h * maxSpeed, s.velocity.y, s.velocity.z / h * maxSpeed⟩
    else s.velocity
  let v2 : Vec3 :=
    if |v1.y| > 1 then ⟨v1.x, Real.sign v1.y * 1, v1.z⟩ else v1
  { s with velocity := v2 }

/-- `updatePosition(deltaTime)`: `position += velocity * deltaTime * 60`. -/
def updatePosition (deltaTime : ℝ) (s : MarbleState) : MarbleState :=
  match s.marble with
  | none => s
  | some m =>
    { s with marble := some ⟨Vec3.add m.position (Vec3.smul (deltaTime * 60) s.velocity)⟩ }

/-- `handleGroundCollision()`: snap the marble bottom onto the supplied
surface and reflect a downward vertical velocity by the bounce factor,
zeroing negligible bounces. -/
def handleGroundCollision (s : MarbleState) : MarbleState :=
  match s.marble with
  | none => s
  | some m =>
    if m.position.y - marbleRadius ≤ s.pathSurfaceHeight then
      let pos' : Vec3 := ⟨m.position.x, s.pathSurfaceHeight + marbleRadius, m.position.z⟩
      let vy' : ℝ :=
        if s.velocity.y < 0 then
          let bounced := -s.velocity.y * bounceFactor
          if |bounced| < 0.01 then 0 else bounced
        else s.velocity.y
      { s with marble := some ⟨pos'⟩, velocity := ⟨s.velocity.x, vy', s.velocity.z⟩ }
    else s

/-- `updateRotation(deltaTime)`: the mesh rotation is rendering-only; the
physics effect is the refreshed, dampened angular velocity along the axis
perpendicular to the horizontal velocity. -/
def updateRotation (_deltaTime : ℝ) (s : MarbleState) : MarbleState :=
  if s.marble = none ∨ Vec3.len s.velocity < 0.001 then s
  else
    let speed := Vec3.len s.velocity
    let rotationSpeed := speed / marbleRadius
    let rotationAxis := Vec3.normalize ⟨-s.velocity.z, 0, s.velocity.x⟩
    { s with angularVelocity := Vec3.smul 0.95 (Vec3.smul rotationSpeed rotationAxis) }

/-- `updateCheckpoint(deltaTime)`: accumulate the timer; at each interval,
save the current position as the checkpoint only when the marble is on the
ground, the supplied surface height is a valid (non-gap, `> -500`) surface,
and the marble is moving forward or nearly at rest. -/
def updateCheckpoint (deltaTime : ℝ) (s : MarbleState) : MarbleState :=
  match s.marble with
  | none => s
  | some m =>
    let timer := s.checkpointUpdateTimer + deltaTime
    if timer ≥ checkpointUpdateInterval then
      let marbleBottom := m.position.y - marbleRadius
      let isOnGround := marbleBottom ≤ s.pathSurfaceHeight + 0.5
      let isMovingForward := s.velocity.z < -0.01
      let isOnValidPath := s.pathSurfaceHeight > -500
      if isOnGround ∧ isOnValidPath ∧ (isMovingForward ∨ Vec3.len s.velocity < 0.01) then
        { s with lastSafePosition := m.position, checkpointUpdateTimer := 0 }
      else { s with checkpointUpdateTimer := timer }
    else { s with checkpointUpdateTimer := timer }

/-- `resetToCheckpoint()`: teleport the marble to the last safe position
(with `y` raised to at least `2`), zero the velocities, and clear the
falling/jump state.  (The mesh rotation reset is rendering-only.) -/
def resetToCheckpoint (s : MarbleState) : MarbleState :=
  let marble' : Option Marble :=
    match s.marble with
    | none => none
    | some _ => some ⟨⟨s.lastSafePosition.x, max s.lastSafePosition.y 2, s.lastSafePosition.z⟩⟩
  { s with
    marble := marble'
    velocity := ⟨0, 0, 0⟩
    angularVelocity := ⟨0, 0, 0⟩
    isFalling := false
    fallStartTime := 0
    jumpCooldown := 0
    canJump := true }

/-- `handleFalling(deltaTime)`: accelerate downward at twice gravity,
integrate the position (the tumbling mesh rotation is rendering-only), and
reset to the checkpoint once `Date.now() - fallStartTime` exceeds the
3000 ms fall timeout (`resetAfterFall` just calls `resetToCheckpoint`). -/
def handleFalling (now deltaTime : ℝ) (s : MarbleState) : MarbleState :=
  match s.marble with
  | none => s
  | some _ =>
    let s1 := { s with
      velocity := ⟨s.velocity.x, s.velocity.y - gravity * 2 * deltaTime * 60, s.velocity.z⟩ }
    let s2 := updatePosition deltaTime s1
    let fallTime := now - s2.fallStartTime
    if fallTime > 3000 then resetToCheckpoint s2 else s2

/-- `startFalling()` (`Date.now()` passed as `now`). -/
def startFalling (now : ℝ) (s : MarbleState) : MarbleState :=
  { s with
    isFalling := true
    fallStartTime := now
    velocity := ⟨s.velocity.x, min s.velocity.y (-0.1), s.velocity.z⟩ }

/-- `update(deltaTime, input)`: no-op without a marble; delegate to
`handleFalling` while falling; otherwise run the rolling pipeline in source
order (jump, input forces, gravity, friction, speed clamp, integration,
ground collision, rotation, checkpoint). -/
def update (now deltaTime : ℝ) (input : InputState) (s : MarbleState) : MarbleState :=
  match s.marble with
  | none => s
  | some _ =>
    if s.isFalling then handleFalling now deltaTime s
    else
      updateCheckpoint deltaTime
        (updateRotation deltaTime
          (handleGroundCollision
            (updatePosition deltaTime
              (limitSpeed
                (applyFriction
                  (applyGravity deltaTime
                    (applyInputForces input deltaTime
                      (handleJumping input deltaTime s))))))))

end MarblePhysics

/-! ## Frame/preservation lemmas for `MarblePhysics.update` -/

namespace MarblePhysics

theorem handleJumping_preserves (input : InputState) (dt : ℝ) (s : MarbleState) :
    (handleJumping input dt s).lastSafePosition = s.lastSafePosition ∧
    (handleJumping input dt s).pathSurfaceHeight = s.pathSurfaceHeight := by
  unfold handleJumping jump
  cases s.marble <;>
    simp [apply_ite MarbleState.lastSafePosition, apply_ite MarbleState.pathSurfaceHeight]

theorem applyInputForces_preserves (input : InputState) (dt : ℝ) (s : MarbleState) :
    (applyInputForces input dt s).lastSafePosition = s.lastSafePosition ∧
    (applyInputForces input dt s).pathSurfaceHeight = s.pathSurfaceHeight := by
  unfold applyInputForces
  split <;> simp

theorem applyGravity_preserves (dt : ℝ) (s : MarbleState) :
    (applyGravity dt s).lastSafePosition = s.lastSafePosition ∧
    (applyGravity dt s).pathSurfaceHeight = s.pathSurfaceHeight := by
  unfold applyGravity
  simp

theorem applyFriction_preserves (s : MarbleState) :
    (applyFriction s).lastSafePosition = s.lastSafePosition ∧
    (applyFriction s).pathSurfaceHeight = s.pathSurfaceHeight := by
  unfold applyFriction
  cases s.marble <;> simp <;> split <;> simp

theorem limitSpeed_preserves (s : MarbleState) :
    (limitSpeed s).lastSafePosition = s.lastSafePosition ∧
    (limitSpeed s).pathSurfaceHeight = s.pathSurfaceHeight := by
  unfold limitSpeed
  simp

theorem updatePosition_preserves (dt : ℝ) (s : MarbleState) :
    (updatePosition dt s).lastSafePosition = s.lastSafePosition ∧
    (updatePosition dt s).pathSurfaceHeight = s.pathSurfaceHeight := by
  unfold updatePosition
  cases s.marble <;> simp

theorem handleGroundCollision_preserves (s : MarbleState) :
    (handleGroundCollision s).lastSafePosition = s.lastSafePosition ∧
    (handleGroundCollision s).pathSurfaceHeight = s.pathSurfaceHeight := by
  unfold handleGroundCollision
  cases s.marble <;> simp <;> split <;> simp

theorem updateRotation_preserves (dt : ℝ) (s : MarbleState) :
    (updateRotation dt s).lastSafePosition = s.lastSafePosition ∧
    (updateRotation dt s).pathSurfaceHeight = s.pathSurfaceHeight := by
  unfold updateRotation
  split <;> simp

theorem resetToCheckpoint_preserves_lsp (s : MarbleState) :
    (resetToCheckpoint s).lastSafePosition = s.lastSafePosition := by
  unfold resetToCheckpoint
  simp

theorem handleFalling_preserves_lsp (now dt : ℝ) (s : MarbleState) :
    (handleFalling now dt s).lastSafePosition = s.lastSafePosition := by
  unfold handleFalling
  cases s.marble with
  | none => rfl
  | some m =>
    simp only
    split
    · rw [resetToCheckpoint_preserves_lsp]
      exact (updatePosition_preserves _ _).1
    · exact (updatePosition_preserves _ _).1

/-- `updateCheckpoint` cannot write the checkpoint when the supplied surface
height is at or below the gap sentinel `-500`. -/
theorem updateCheckpoint_frozen_on_gap (dt : ℝ) (s : MarbleState)
    (hgap : s.pathSurfaceHeight ≤ -500) :
    (updateCheckpoint dt s).lastSafePosition = s.lastSafePosition := by
  unfold updateCheckpoint
  cases s.marble with
  | none => rfl
  | some m =>
    simp only
    split
    · rw [if_neg]
      rintro ⟨-, hvalid, -⟩
      exact absurd hvalid (by linarith)
    · rfl

end MarblePhysics

/-! ## Claims C4, C5, C8, C9 -/

/-- Claim C9: if `MarblePhysics` has not been initialized with a marble mesh,
`update` is a no-op: it returns the state unchanged (and, being a total
function, never throws). -/
theorem update_noop_when_uninitialized (now dt : ℝ) (input : InputState)
    (s : MarbleState) (h : s.marble = none) :
    MarblePhysics.update now dt input s = s := by
  simp only [MarblePhysics.update, h]

def idleInput : InputState := ⟨0, 0, false, false⟩

def uninitState : MarbleState :=
  { marble := none
    velocity := ⟨0, 0, 0⟩
    angularVelocity := ⟨0, 0, 0⟩
    isFalling := false
    fallStartTime := 0
    canJump := true
    jumpCooldown := 0
    lastSafePosition := ⟨0, 2, 0⟩
    checkpointUpdateTimer := 0
    pathSurfaceHeight := 0 }

/-- Witness for C9 at a concrete uninitialized state. -/
theorem update_noop_when_uninitialized_witness :
    MarblePhysics.update 1000 (1 / 60) idleInput uninitState = uninitState :=
  update_noop_when_uninitialized 1000 (1 / 60) idleInput uninitState rfl

/-- Claim C8: while the marble is falling, or while the supplied surface
height is at or below the gap sentinel `-500`, `update` never modifies
`lastSafePosition`. -/
theorem checkpoint_frozen_while_falling_or_gap (now dt : ℝ) (input : InputState)
    (s : MarbleState) (h : s.isFalling = true ∨ s.pathSurfaceHeight ≤ -500) :
    (MarblePhysics.update now dt input s).lastSafePosition = s.lastSafePosition := by
  cases hm : s.marble with
  | none => simp only [MarblePhysics.update, hm]
  | some m =>
    simp only [MarblePhysics.update, hm]
    cases hf : s.isFalling with
    | true =>
      simp only [if_pos]
      exact MarblePhysics.handleFalling_preserves_lsp now dt s
    | false =>
      have hgap : s.pathSurfaceHeight ≤ -500 := by
        rcases h with h | h
        · rw [hf] at h; exact absurd h (by simp)
        · exact h
      simp only [Bool.false_eq_true, if_false]
      have p1 := MarblePhysics.handleJumping_preserves input dt s
      have p2 := MarblePhysics.applyInputForces_preserves input dt
        (MarblePhysics.handleJumping input dt s)
      have p3 := MarblePhysics.applyGravity_preserves dt
        (MarblePhysics.applyInputForces input dt (MarblePhysics.handleJumping input dt s))
      have p4 := MarblePhysics.applyFriction_preserves
        (MarblePhysics.applyGravity dt (MarblePhysics.applyInputForces input dt
          (MarblePhysics.handleJumping input dt s)))
      have p5 := MarblePhysics.limitSpeed_preserves
        (MarblePhysics.applyFriction (MarblePhysics.applyGravity dt
          (MarblePhysics.applyInputForces input dt
            (MarblePhysics.handleJumping input dt s))))
      have p6 := MarblePhysics.updatePosition_preserves dt
        (MarblePhysics.limitSpeed (MarblePhysics.applyFriction
          (MarblePhysics.applyGravity dt (MarblePhysics.applyInputForces input dt
            (MarblePhysics.handleJumping input dt s)))))
      have p7 := MarblePhysics.handleGroundCollision_preserves
        (MarblePhysics.updatePosition dt (MarblePhysics.limitSpeed
          (MarblePhysics.applyFriction (MarblePhysics.applyGravity dt
            (MarblePhysics.applyInputForces input dt
              (MarblePhysics.handleJumping input dt s))))))
      have p8 := MarblePhysics.updateRotation_preserves dt
        (MarblePhysics.handleGroundCollision (MarblePhysics.updatePosition dt
          (MarblePhysics.limitSpeed (MarblePhysics.applyFriction
            (MarblePhysics.applyGravity dt (MarblePhysics.applyInputForces input dt
              (MarblePhysics.handleJumping input dt s)))))))
      rw [MarblePhysics.updateCheckpoint_frozen_on_gap]
      · rw [p8.1, p7.1, p6.1, p5.1, p4.1, p3.1, p2.1, p1.1]
      · rw [p8.2, p7.2, p6.2, p5.2, p4.2, p3.2, p2.2, p1.2]
        exact hgap

def gapTickState : MarbleState :=
  { marble := some ⟨⟨0, 1, -30⟩⟩
    velocity := ⟨0, 0, -0.2⟩
    angularVelocity := ⟨0, 0, 0⟩
    isFalling := false
    fallStartTime := 0
    canJump := true
    jumpCooldown := 0
    lastSafePosition := ⟨0, 2, -10⟩
    checkpointUpdateTimer := 10
    pathSurfaceHeight := -1000 }

/-- Witness for C8: one update over the `-1000` gap sentinel leaves the
checkpoint untouched. -/
theorem checkpoint_frozen_witness :
    (MarblePhysics.update 5000 (1 / 60) idleInput gapTickState).lastSafePosition =
      gapTickState.lastSafePosition :=
  checkpoint_frozen_while_falling_or_gap 5000 (1 / 60) idleInput gapTickState
    (Or.inr (by norm_num [gapTickState]))

/-- Claim C4 (amended): one `update` on a falling marble whose fall started
more than the 3000 ms timeout ago clears the falling state, zeroes both
velocities, and teleports the marble to `lastSafePosition` with its `y`
coordinate raised to at least `2` (so the position equals `lastSafePosition`
exactly iff `lastSafePosition.y ≥ 2`). -/
theorem fall_timeout_resets_to_checkpoint (now dt : ℝ) (input : InputState)
    (s : MarbleState) (m : Marble) (hm : s.marble = some m)
    (hf : s.isFalling = true) (ht : now - s.fallStartTime > 3000) :
    (MarblePhysics.update now dt input s).isFalling = false ∧
    (MarblePhysics.update now dt input s).velocity = ⟨0, 0, 0⟩ ∧
    (MarblePhysics.update now dt input s).angularVelocity = ⟨0, 0, 0⟩ ∧
    (MarblePhysics.update now dt input s).marble =
      some ⟨⟨s.lastSafePosition.x, max s.lastSafePosition.y 2, s.lastSafePosition.z⟩⟩ ∧
    (MarblePhysics.update now dt input s).lastSafePosition = s.lastSafePosition := by
  simp only [MarblePhysics.update, hm, hf, if_true,
    MarblePhysics.handleFalling, MarblePhysics.updatePosition,
    MarblePhysics.resetToCheckpoint]
  rw [if_pos (by simpa using ht)]
  simp

def fallTimedOutState : MarbleState :=
  { marble := some ⟨⟨0, 10, 0⟩⟩
    velocity := ⟨0, 0, 0⟩
    angularVelocity := ⟨0, 0, 0⟩
    isFalling := true
    fallStartTime := 0
    canJump := false
    jumpCooldown := 0
    lastSafePosition := ⟨0, 0, 0⟩
    checkpointUpdateTimer := 0
    pathSurfaceHeight := -1000 }

/-- Witness for C4 (amended) at a concrete timed-out falling state. -/
theorem fall_timeout_resets_witness :
    (MarblePhysics.update 4000 (1 / 60) idleInput fallTimedOutState).isFalling = false ∧
    (MarblePhysics.update 4000 (1 / 60) idleInput fallTimedOutState).velocity = ⟨0, 0, 0⟩ ∧
    (MarblePhysics.update 4000 (1 / 60) idleInput fallTimedOutState).angularVelocity = ⟨0, 0, 0⟩ ∧
    (MarblePhysics.update 4000 (1 / 60) idleInput fallTimedOutState).marble =
      some ⟨⟨fallTimedOutState.lastSafePosition.x,
             max fallTimedOutState.lastSafePosition.y 2,
             fallTimedOutState.lastSafePosition.z⟩⟩ ∧
    (MarblePhysics.update 4000 (1 / 60) idleInput fallTimedOutState).lastSafePosition =
      fallTimedOutState.lastSafePosition :=
  fall_timeout_resets_to_checkpoint 4000 (1 / 60) idleInput fallTimedOutState
    ⟨⟨0, 10, 0⟩⟩ rfl rfl (by norm_num [fallTimedOutState])

/-- Counterexample to C4 as stated: the same timed-out falling marble, whose
checkpoint `lastSafePosition = (0,0,0)` has `y < 2`, does NOT end the update
at exactly `lastSafePosition` — `resetToCheckpoint` raises `y` to `2`. -/
theorem fall_reset_position_clamped_cex :
    fallTimedOutState.isFalling = true ∧
    4000 - fallTimedOutState.fallStartTime > 3000 ∧
    (MarblePhysics.update 4000 (1 / 60) idleInput fallTimedOutState).marble ≠
      some ⟨fallTimedOutState.lastSafePosition⟩ := by
  refine ⟨rfl, by norm_num [fallTimedOutState], ?_⟩
  have h : (MarblePhysics.update 4000 (1 / 60) idleInput fallTimedOutState).marble =
      some ⟨⟨0, max 0 2, 0⟩⟩ := by
    simp only [MarblePhysics.update, MarblePhysics.handleFalling,
      MarblePhysics.updatePosition, MarblePhysics.resetToCheckpoint, fallTimedOutState]
    norm_num
  rw [h]
  simp only [fallTimedOutState, ne_eq, Option.some.injEq, Marble.mk.injEq, Vec3.mk.injEq]
  norm_num

/-- Grounded in the sense of the specification (§4.3 2a): the marble bottom
`position.y − marbleRadius` is within the small epsilon `0.1` of the
externally supplied surface height.  Modelled from the spec's words for
comparison against the code's `applyFriction` test. -/
def specGrounded (s : MarbleState) (m : Marble) : Prop :=
  m.position.y - MarblePhysics.marbleRadius ≤ s.pathSurfaceHeight + 0.1

/-- Claim C5 (amended): the friction step branches on the fixed test
`position.y ≤ groundLevel + 0.1` (with `groundLevel = 0.3` a constant),
not on the externally supplied surface height; the two tests coincide
exactly when the supplied surface height is `0`. -/
theorem applyFriction_uses_fixed_groundLevel (s : MarbleState) (m : Marble)
    (hm : s.marble = some m) :
    (m.position.y ≤ MarblePhysics.groundLevel + 0.1 →
      (MarblePhysics.applyFriction s).velocity =
        ⟨s.velocity.x * MarblePhysics.friction, s.velocity.y * 0.95,
         s.velocity.z * MarblePhysics.friction⟩) ∧
    (¬ m.position.y ≤ MarblePhysics.groundLevel + 0.1 →
      (MarblePhysics.applyFriction s).velocity =
        Vec3.smul MarblePhysics.airResistance s.velocity) ∧
    (s.pathSurfaceHeight = 0 →
      (m.position.y ≤ MarblePhysics.groundLevel + 0.1 ↔ specGrounded s m)) := by
  refine ⟨fun hg => ?_, fun hg => ?_, fun hzero => ?_⟩
  · simp only [MarblePhysics.applyFriction, hm]
    rw [if_pos hg]
  · simp only [MarblePhysics.applyFriction, hm]
    rw [if_neg hg]
  · unfold specGrounded MarblePhysics.groundLevel MarblePhysics.marbleRadius
    rw [hzero]
    constructor <;> intro h <;> linarith

def groundedFrictionState : MarbleState :=
  { marble := some ⟨⟨0, 0.3, 0⟩⟩
    velocity := ⟨0.2, -0.1, -0.3⟩
    angularVelocity := ⟨0, 0, 0⟩
    isFalling := false
    fallStartTime := 0
    canJump := true
    jumpCooldown := 0
    lastSafePosition := ⟨0, 2, 0⟩
    checkpointUpdateTimer := 0
    pathSurfaceHeight := 0 }

/-- Witness for C5 (amended) at a concrete grounded state on surface 0. -/
theorem applyFriction_fixed_groundLevel_witness :
    (MarblePhysics.applyFriction groundedFrictionState).velocity =
      ⟨groundedFrictionState.velocity.x * MarblePhysics.friction,
       groundedFrictionState.velocity.y * 0.95,
       groundedFrictionState.velocity.z * MarblePhysics.friction⟩ ∧
    ((⟨⟨0, 0.3, 0⟩⟩ : Marble).position.y ≤ MarblePhysics.groundLevel + 0.1 ↔
      specGrounded groundedFrictionState ⟨⟨0, 0.3, 0⟩⟩) :=
  ⟨(applyFriction_uses_fixed_groundLevel groundedFrictionState ⟨⟨0, 0.3, 0⟩⟩ rfl).1
      (by norm_num [MarblePhysics.groundLevel]),
   (applyFriction_uses_fixed_groundLevel groundedFrictionState ⟨⟨0, 0.3, 0⟩⟩ rfl).2.2
      (by norm_num [groundedFrictionState])⟩

def elevatedFrictionState : MarbleState :=
  { marble := some ⟨⟨0, 10.3, 0⟩⟩
    velocity := ⟨1, 1, 1⟩
    angularVelocity := ⟨0, 0, 0⟩
    isFalling := false
    fallStartTime := 0
    canJump := true
    jumpCooldown := 0
    lastSafePosition := ⟨0, 2, 0⟩
    checkpointUpdateTimer := 0
    pathSurfaceHeight := 10 }

/-- Counterexample to C5 as stated: a marble resting on an elevated surface
(supplied height 10, bottom at exactly 10) is grounded in the spec's sense,
yet `applyFriction` takes the airborne branch and does not apply the
ground-friction scaling. -/
theorem applyFriction_ignores_surface_height_cex :
    specGrounded elevatedFrictionState ⟨⟨0, 10.3, 0⟩⟩ ∧
    (MarblePhysics.applyFriction elevatedFrictionState).velocity ≠
      ⟨elevatedFrictionState.velocity.x * MarblePhysics.friction,
       elevatedFrictionState.velocity.y * 0.95,
       elevatedFrictionState.velocity.z * MarblePhysics.friction⟩ := by
  constructor
  · norm_num [specGrounded, elevatedFrictionState, MarblePhysics.marbleRadius]
  · have hair : (MarblePhysics.applyFriction elevatedFrictionState).velocity =
        Vec3.smul MarblePhysics.airResistance elevatedFrictionState.velocity := by
      simp only [MarblePhysics.applyFriction, elevatedFrictionState]
      rw [if_neg (by norm_num [MarblePhysics.groundLevel])]
    rw [hair]
    simp only [elevatedFrictionState, Vec3.smul, MarblePhysics.airResistance,
      MarblePhysics.friction, Vec3.mk.injEq]
    norm_num

/-! ## Claims C6, C7 -/

namespace PathGenerator

theorem genPoints_length (st : PathGenState) : (genPoints st).length = 51 := by
  simp [genPoints, segmentCount]

theorem genPoints_getElem (st : PathGenState) (i : ℕ) (h : i < 51) :
    (genPoints st)[i]? = some (pointAt st i) := by
  simp [genPoints, segmentCount, List.getElem?_map, List.getElem?_range h]

theorem genPoints_getD (st : PathGenState) (i : ℕ) (h : i < 51) :
    (genPoints st).getD i dummyPoint = pointAt st i := by
  rw [List.getD_eq_getElem?_getD, genPoints_getElem st i h]
  rfl

end PathGenerator

/-- Claim C6: with `chunkLength = 200` and 50 points per chunk, every
`generateChunk(id)` call returns a chunk with exactly 51 points, whose `id`
is the argument and whose `startPosition`/`endPosition` are exactly the
positions of `points[0]` and `points[points.length - 1]`. -/
theorem generateChunk_output_shape (st : PathGenState) (chunkId : String) :
    ((PathGenerator.generateChunk st chunkId).1.points.length = 51) ∧
    ((PathGenerator.generateChunk st chunkId).1.id = chunkId) ∧
    (((PathGenerator.generateChunk st chunkId).1.points.map PathPoint.position)[0]? =
      some (PathGenerator.generateChunk st chunkId).1.startPosition) ∧
    (((PathGenerator.generateChunk st chunkId).1.points.map PathPoint.position)[
        (PathGenerator.generateChunk st chunkId).1.points.length - 1]? =
      some (PathGenerator.generateChunk st chunkId).1.endPosition) := by
  refine ⟨?_, rfl, ?_, ?_⟩
  · simp [PathGenerator.generateChunk, PathGenerator.genPoints_length]
  · show ((PathGenerator.genPoints st).map PathPoint.position)[0]? =
      some ((PathGenerator.genPoints st).getD 0 PathGenerator.dummyPoint).position
    rw [List.getElem?_map, PathGenerator.genPoints_getElem st 0 (by norm_num),
      PathGenerator.genPoints_getD st 0 (by norm_num)]
    rfl
  · show ((PathGenerator.genPoints st).map PathPoint.position)[
        (PathGenerator.genPoints st).length - 1]? =
      some ((PathGenerator.genPoints st).getD
        ((PathGenerator.genPoints st).length - 1) PathGenerator.dummyPoint).position
    rw [PathGenerator.genPoints_length, List.getElem?_map,
      PathGenerator.genPoints_getElem st 50 (by norm_num),
      PathGenerator.genPoints_getD st 50 (by norm_num)]
    rfl

namespace PathGenerator

theorem iterGen_currentDistance (st : PathGenState) (n : ℕ) :
    (iterGen st n).currentDistance = st.currentDistance + 200 * n := by
  induction n with
  | zero => simp [iterGen]
  | succ n ih =>
    show (generateChunk (iterGen st n) _).2.currentDistance = _
    simp only [generateChunk, chunkLength]
    rw [ih]
    push_cast
    ring

theorem iterGen_difficulty_formula (seedArg : Option ℝ) (r : ℝ) (n : ℕ) :
    (iterGen (mk seedArg r) n).difficulty =
      min ((iterGen (mk seedArg r) n).currentDistance / 10000) 1 := by
  cases n with
  | zero =>
    show (mk seedArg r).difficulty = min ((mk seedArg r).currentDistance / 10000) 1
    simp [mk]
  | succ n => rfl

end PathGenerator

/-- Claim C7: across any number of `generateChunk` calls on one instance,
`difficulty` always equals `min(currentDistance / 10000, 1)`, the distance
advances by the chunk length each call, difficulty is non-decreasing in the
number of calls (hence in `distanceTraveled`), and it saturates at exactly
`1` once `currentDistance` reaches the 10000 constant. -/
theorem difficulty_formula_monotone_saturates (seedArg : Option ℝ) (r : ℝ) (n : ℕ) :
    ((PathGenerator.iterGen (PathGenerator.mk seedArg r) n).difficulty =
      min ((PathGenerator.iterGen (PathGenerator.mk seedArg r) n).currentDistance / 10000) 1) ∧
    ((PathGenerator.iterGen (PathGenerator.mk seedArg r) n).currentDistance = 200 * n) ∧
    (∀ m, m ≤ n →
      (PathGenerator.iterGen (PathGenerator.mk seedArg r) m).difficulty ≤
        (PathGenerator.iterGen (PathGenerator.mk seedArg r) n).difficulty) ∧
    (10000 ≤ (PathGenerator.iterGen (PathGenerator.mk seedArg r) n).currentDistance →
      (PathGenerator.iterGen (PathGenerator.mk seedArg r) n).difficulty = 1) := by
  have hdist : ∀ k, (PathGenerator.iterGen (PathGenerator.mk seedArg r) k).currentDistance
      = 200 * k := by
    intro k
    rw [PathGenerator.iterGen_currentDistance]
    simp [PathGenerator.mk]
  refine ⟨PathGenerator.iterGen_difficulty_formula seedArg r n, hdist n, ?_, ?_⟩
  · intro m hm
    rw [PathGenerator.iterGen_difficulty_formula seedArg r n,
      PathGenerator.iterGen_difficulty_formula seedArg r m, hdist n, hdist m]
    have : (200 : ℝ) * m ≤ 200 * n := by
      have : (m : ℝ) ≤ n := by exact_mod_cast hm
      linarith
    exact min_le_min (by linarith) le_rfl
  · intro hsat
    rw [PathGenerator.iterGen_difficulty_formula seedArg r n]
    have : (1 : ℝ) ≤ (PathGenerator.iterGen (PathGenerator.mk seedArg r) n).currentDistance
        / 10000 := by
      rw [le_div_iff (by norm_num)]
      linarith
    exact min_eq_right this

/-- Witness for C7: after 60 chunks the distance is 12000 and difficulty is
saturated at 1, and it dominates the difficulty after 2 chunks. -/
theorem difficulty_saturates_witness :
    (PathGenerator.iterGen (PathGenerator.mk (some 42) 0) 2).difficulty ≤
      (PathGenerator.iterGen (PathGenerator.mk (some 42) 0) 60).difficulty ∧
    (PathGenerator.iterGen (PathGenerator.mk (some 42) 0) 60).difficulty = 1 := by
  have h := difficulty_formula_monotone_saturates (some 42) 0 60
  exact ⟨h.2.2.1 2 (by norm_num), h.2.2.2 (by rw [h.2.1]; norm_num)⟩

/-! ## Geometry helper lemmas for the chunk-seam analysis (claim C1) -/

namespace Vec3

theorem applyAxisAngleY_y (θ : ℝ) (v : Vec3) : (applyAxisAngleY θ v).y = v.y := rfl

/-- Rotation about the y axis preserves the horizontal squared norm. -/
theorem applyAxisAngleY_xz_sq (θ : ℝ) (v : Vec3) :
    (applyAxisAngleY θ v).x ^ 2 + (applyAxisAngleY θ v).z ^ 2 = v.x ^ 2 + v.z ^ 2 := by
  unfold applyAxisAngleY
  have h := Real.sin_sq_add_cos_sq θ
  simp only
  nlinarith [h]

theorem len_pos_of_xz (v : Vec3) (h : 0 < v.x ^ 2 + v.z ^ 2) : 0 < len v := by
  unfold len
  apply Real.sqrt_pos.mpr
  nlinarith [sq_nonneg v.y]

/-- `normalize` of a vector of positive length is the explicit rescaling. -/
theorem normalize_of_len_pos (v : Vec3) (h : 0 < len v) :
    normalize v = smul (1 / len v) v := by
  unfold normalize
  rw [if_neg (by linarith)]

/-- A horizontal unit vector is fixed by `normalize`. -/
theorem normalize_of_unit_xz (v : Vec3) (hy : v.y = 0) (hxz : v.x ^ 2 + v.z ^ 2 = 1) :
    normalize v = v := by
  have hlen : len v = 1 := by
    unfold len
    rw [show v.x ^ 2 + v.y ^ 2 + v.z ^ 2 = 1 by rw [hy]; linarith]
    exact Real.sqrt_one
  unfold normalize
  rw [hlen, if_neg (by norm_num)]
  unfold smul
  cases v
  simp

/-- `normalize` keeps the horizontal part nonzero. -/
theorem normalize_xz_sq_pos (v : Vec3) (h : 0 < v.x ^ 2 + v.z ^ 2) :
    0 < (normalize v).x ^ 2 + (normalize v).z ^ 2 := by
  have hlen := len_pos_of_xz v h
  rw [normalize_of_len_pos v hlen]
  unfold smul
  simp only
  have h2 : (0 : ℝ) < (1 / len v) ^ 2 := by positivity
  calc (0 : ℝ) < (1 / len v) ^ 2 * (v.x ^ 2 + v.z ^ 2) := by positivity
    _ = (1 / len v * v.x) ^ 2 + (1 / len v * v.z) ^ 2 := by ring

end Vec3

namespace PathGenerator

theorem abs_sin_le_one' (x : ℝ) : |Real.sin x| ≤ 1 :=
  abs_le.mpr ⟨Real.neg_one_le_sin x, Real.sin_le_one x⟩

theorem abs_cos_le_one' (x : ℝ) : |Real.cos x| ≤ 1 :=
  abs_le.mpr ⟨Real.neg_one_le_cos x, Real.cos_le_one x⟩

theorem abs_sin_cos_term_le (a b c : ℝ) (hc : 0 ≤ c) : |Real.sin a * Real.cos b * c| ≤ c := by
  rw [abs_mul, abs_mul, abs_of_nonneg hc]
  have h1 : |Real.sin a| * |Real.cos b| ≤ 1 := by
    nlinarith [abs_sin_le_one' a, abs_cos_le_one' b, abs_nonneg (Real.sin a),
      abs_nonneg (Real.cos b)]
  nlinarith [abs_nonneg (Real.sin a), abs_nonneg (Real.cos b)]

theorem abs_sin_term_le (a c : ℝ) (hc : 0 ≤ c) : |Real.sin a * c| ≤ c := by
  rw [abs_mul, abs_of_nonneg hc]
  nlinarith [abs_sin_le_one' a, abs_nonneg (Real.sin a)]

theorem abs_add5_le {a b c d e A B C D E : ℝ} (ha : |a| ≤ A) (hb : |b| ≤ B)
    (hc : |c| ≤ C) (hd : |d| ≤ D) (he : |e| ≤ E) :
    |a + b + c + d + e| ≤ A + B + C + D + E := by
  have h1 := abs_add (a + b + c + d) e
  have h2 := abs_add (a + b + c) d
  have h3 := abs_add (a + b) c
  have h4 := abs_add a b
  linarith

/-- Uniform bound on the curvature noise: the four octave amplitudes sum to
`0.6` and the chunk-variation term contributes at most `0.1`. -/
theorem abs_curvatureAt_le (st : PathGenState) (i : ℕ) (pos : Vec3) :
    |curvatureAt st i pos| ≤ 0.7 := by
  unfold curvatureAt getCurvatureAtWorldPosition chunkVariation
  simp only
  have t1 := abs_sin_cos_term_le ((pos.x + st.noiseOffsetX) * worldCurvatureScale * Real.pi * 2)
    ((pos.z + st.noiseOffsetZ) * worldCurvatureScale * Real.pi * 2) 0.25 (by norm_num)
  have t2 := abs_sin_cos_term_le
    ((pos.x + st.noiseOffsetX) * worldCurvatureScale * 3.1 * Real.pi * 2)
    ((pos.z + st.noiseOffsetZ) * worldCurvatureScale * 2.7 * Real.pi * 2) 0.15 (by norm_num)
  have t3 := abs_sin_cos_term_le
    ((pos.x + st.noiseOffsetX) * localVariationScale * 2.1 * Real.pi * 2)
    ((pos.z + st.noiseOffsetZ) * localVariationScale * 1.8 * Real.pi * 2) 0.08 (by norm_num)
  have t4 := abs_sin_term_le
    ((pos.x + st.noiseOffsetX) * worldCurvatureScale * 4.7 * Real.pi * 2 +
      (pos.z + st.noiseOffsetZ) * 0.1) 0.12 (by norm_num)
  have t5 : |Real.sin (st.currentDistance * 0.001) * 0.1 * Real.sin ((i : ℝ) / 50 * Real.pi * 4)|
      ≤ 0.1 := by
    rw [abs_mul]
    nlinarith [abs_sin_term_le (st.currentDistance * 0.001) 0.1 (by norm_num),
      abs_sin_le_one' ((i : ℝ) / 50 * Real.pi * 4),
      abs_nonneg (Real.sin (st.currentDistance * 0.001) * 0.1),
      abs_nonneg (Real.sin ((i : ℝ) / 50 * Real.pi * 4))]
  exact le_trans (abs_add5_le t1 t2 t3 t4 t5) (by norm_num)

/-- The turn angle applied at any step has nonnegative cosine (it is at most
`0.7 * 0.035 = 0.0245` in magnitude, far below `π/2`). -/
theorem cos_turnAngle_nonneg (st : PathGenState) (i : ℕ) (pos : Vec3) :
    0 ≤ Real.cos (curvatureAt st i pos * 0.035) := by
  have hb := abs_curvatureAt_le st i pos
  have habs : |curvatureAt st i pos * 0.035| ≤ 0.0245 := by
    rw [abs_mul]
    rw [abs_of_nonneg (show (0 : ℝ) ≤ 0.035 by norm_num)]
    nlinarith [abs_nonneg (curvatureAt st i pos)]
  have hpi := Real.pi_gt_three
  have h1 := abs_le.mp habs
  apply Real.cos_nonneg_of_mem_Icc
  constructor <;> [linarith [h1.1]; linarith [h1.2]]

/-- Invariant of the generation loop: starting from a horizontal unit
`lastDirection`, the cursor direction stays a horizontal unit vector (the
y-axis rotation preserves both properties, and `normalize` then fixes the
vector). -/
theorem cursor_dir_invariant (st : PathGenState)
    (hy : st.lastDirection.y = 0)
    (hxz : st.lastDirection.x ^ 2 + st.lastDirection.z ^ 2 = 1) :
    ∀ i, (cursorAt st i).dir.y = 0 ∧
      (cursorAt st i).dir.x ^ 2 + (cursorAt st i).dir.z ^ 2 = 1 := by
  intro i
  induction i with
  | zero => exact ⟨hy, hxz⟩
  | succ i ih =>
    have hstep : cursorAt st (i + 1) = cursorStep st i (cursorAt st i) := rfl
    rw [hstep]
    simp only [cursorStep]
    rw [Vec3.normalize_of_unit_xz _
      (by rw [Vec3.applyAxisAngleY_y]; exact ih.1)
      (by rw [Vec3.applyAxisAngleY_xz_sq]; exact ih.2)]
    exact ⟨by rw [Vec3.applyAxisAngleY_y]; exact ih.1,
      by rw [Vec3.applyAxisAngleY_xz_sq]; exact ih.2⟩

/-- Under the horizontal-unit invariant, the direction after step `i` is
exactly the rotated direction (the renormalization is the identity). -/
theorem cursorAt_succ_dir (st : PathGenState)
    (hy : st.lastDirection.y = 0)
    (hxz : st.lastDirection.x ^ 2 + st.lastDirection.z ^ 2 = 1) (i : ℕ) :
    (cursorAt st (i + 1)).dir =
      Vec3.applyAxisAngleY (curvatureAt st i (cursorAt st i).pos * 0.035)
        (cursorAt st i).dir := by
  have ih := cursor_dir_invariant st hy hxz i
  have hstep : cursorAt st (i + 1) = cursorStep st i (cursorAt st i) := rfl
  rw [hstep]
  simp only [cursorStep]
  exact Vec3.normalize_of_unit_xz _
    (by rw [Vec3.applyAxisAngleY_y]; exact ih.1)
    (by rw [Vec3.applyAxisAngleY_xz_sq]; exact ih.2)

theorem segmentLength_eq : segmentLength = 4 := by
  unfold segmentLength chunkLength
  norm_num

/-- The position emitted at step `i` is the cursor position after step `i`. -/
theorem pointAt_position (st : PathGenState) (i : ℕ) :
    (pointAt st i).position = (cursorAt st (i + 1)).pos := rfl

/-- Coordinate form of one cursor move. -/
theorem cursorAt_succ_pos_x (st : PathGenState) (i : ℕ) :
    (cursorAt st (i + 1)).pos.x =
      (cursorAt st i).pos.x + segmentLength * (cursorAt st (i + 1)).dir.x := rfl

theorem cursorAt_succ_pos_z (st : PathGenState) (i : ℕ) :
    (cursorAt st (i + 1)).pos.z =
      (cursorAt st i).pos.z + segmentLength * (cursorAt st (i + 1)).dir.z := rfl

theorem generateChunk_endPosition (st : PathGenState) (id : String) :
    (generateChunk st id).1.endPosition = (pointAt st 50).position := by
  simp only [generateChunk]
  have h : (genPoints st).length - 1 = 50 := by rw [genPoints_length]
  rw [h, genPoints_getD st 50 (by norm_num)]

theorem generateChunk_startPosition (st : PathGenState) (id : String) :
    (generateChunk st id).1.startPosition = (pointAt st 0).position := by
  simp only [generateChunk]
  rw [genPoints_getD st 0 (by norm_num)]

theorem generateChunk_lastPosition (st : PathGenState) (id : String) :
    (generateChunk st id).2.lastPosition = (pointAt st 50).position := by
  simp only [generateChunk]
  have h : (genPoints st).length - 1 = 50 := by rw [genPoints_length]
  rw [h, genPoints_getD st 50 (by norm_num)]

/-- The smoothing blend at the end of `generateChunk`, in terms of the last
three emitted points (the `points.length > 3` test always passes). -/
theorem generateChunk_lastDirection (st : PathGenState) (id : String) :
    (generateChunk st id).2.lastDirection =
      Vec3.normalize (Vec3.add
        (Vec3.smul 0.3 (Vec3.normalize
          (Vec3.sub (pointAt st 49).position (pointAt st 48).position)))
        (Vec3.smul 0.7 (Vec3.normalize
          (Vec3.sub (pointAt st 50).position (pointAt st 49).position)))) := by
  simp only [generateChunk]
  rw [if_pos (by rw [genPoints_length]; norm_num)]
  have h3 : (genPoints st).length - 3 = 48 := by rw [genPoints_length]
  have h2 : (genPoints st).length - 2 = 49 := by rw [genPoints_length]
  have h1 : (genPoints st).length - 1 = 50 := by rw [genPoints_length]
  rw [h3, h2, h1, genPoints_getD st 48 (by norm_num), genPoints_getD st 49 (by norm_num),
    genPoints_getD st 50 (by norm_num)]

theorem sub_points_x (st : PathGenState) (i : ℕ) :
    (Vec3.sub (pointAt st (i + 1)).position (pointAt st i).position).x =
      segmentLength * (cursorAt st (i + 1 + 1)).dir.x := by
  show (cursorAt st (i + 1 + 1)).pos.x - (cursorAt st (i + 1)).pos.x = _
  rw [cursorAt_succ_pos_x st (i + 1)]
  ring

theorem sub_points_z (st : PathGenState) (i : ℕ) :
    (Vec3.sub (pointAt st (i + 1)).position (pointAt st i).position).z =
      segmentLength * (cursorAt st (i + 1 + 1)).dir.z := by
  show (cursorAt st (i + 1 + 1)).pos.z - (cursorAt st (i + 1)).pos.z = _
  rw [cursorAt_succ_pos_z st (i + 1)]
  ring

set_option maxHeartbeats 1000000 in
/-- Key seam fact: for a generator whose persisted direction is a horizontal
unit vector, the smoothed `lastDirection` stored after `generateChunk` still
has a nonzero horizontal component.  (The blend of the last two point-to-point
directions has positive inner product with the final step direction, because
consecutive step directions differ by a rotation of at most `0.0245`
radians.) -/
theorem lastDirection_xz_sq_pos (st : PathGenState)
    (hy : st.lastDirection.y = 0)
    (hxz : st.lastDirection.x ^ 2 + st.lastDirection.z ^ 2 = 1) (id : String) :
    0 < ((generateChunk st id).2.lastDirection).x ^ 2 +
        ((generateChunk st id).2.lastDirection).z ^ 2 := by
  rw [generateChunk_lastDirection]
  apply Vec3.normalize_xz_sq_pos
  set d1 := Vec3.sub (pointAt st 49).position (pointAt st 48).position with hd1def
  set d2 := Vec3.sub (pointAt st 50).position (pointAt st 49).position with hd2def
  -- point-to-point differences in terms of the unit step directions
  have hd1x : d1.x = segmentLength * (cursorAt st 50).dir.x := by
    rw [hd1def]
    have h := sub_points_x st 48
    rw [show (48 : ℕ) + 1 = 49 by norm_num, show (49 : ℕ) + 1 = 50 by norm_num] at h
    exact h
  have hd1z : d1.z = segmentLength * (cursorAt st 50).dir.z := by
    rw [hd1def]
    have h := sub_points_z st 48
    rw [show (48 : ℕ) + 1 = 49 by norm_num, show (49 : ℕ) + 1 = 50 by norm_num] at h
    exact h
  have hd2x : d2.x = segmentLength * (cursorAt st 51).dir.x := by
    rw [hd2def]
    have h := sub_points_x st 49
    rw [show (49 : ℕ) + 1 = 50 by norm_num, show (50 : ℕ) + 1 = 51 by norm_num] at h
    exact h
  have hd2z : d2.z = segmentLength * (cursorAt st 51).dir.z := by
    rw [hd2def]
    have h := sub_points_z st 49
    rw [show (49 : ℕ) + 1 = 50 by norm_num, show (50 : ℕ) + 1 = 51 by norm_num] at h
    exact h
  rw [segmentLength_eq] at hd1x hd1z hd2x hd2z
  have husq := (cursor_dir_invariant st hy hxz 50).2
  have hwsq := (cursor_dir_invariant st hy hxz 51).2
  have hwrot := cursorAt_succ_dir st hy hxz 50
  rw [show (50 : ℕ) + 1 = 51 by norm_num] at hwrot
  -- the two step directions differ by a y-rotation with nonnegative cosine
  have hwx : (cursorAt st 51).dir.x =
      (cursorAt st 50).dir.x * Real.cos (curvatureAt st 50 (cursorAt st 50).pos * 0.035) +
      (cursorAt st 50).dir.z * Real.sin (curvatureAt st 50 (cursorAt st 50).pos * 0.035) := by
    rw [hwrot]; rfl
  have hwz : (cursorAt st 51).dir.z =
      -(cursorAt st 50).dir.x * Real.sin (curvatureAt st 50 (cursorAt st 50).pos * 0.035) +
      (cursorAt st 50).dir.z * Real.cos (curvatureAt st 50 (cursorAt st 50).pos * 0.035) := by
    rw [hwrot]; rfl
  have hcos := cos_turnAngle_nonneg st 50 (cursorAt st 50).pos
  -- the two differences have length at least 4
  have hn1sq : d1.x ^ 2 + d1.y ^ 2 + d1.z ^ 2 = 16 + d1.y ^ 2 := by
    rw [hd1x, hd1z]
    linear_combination 16 * husq
  have hn2sq : d2.x ^ 2 + d2.y ^ 2 + d2.z ^ 2 = 16 + d2.y ^ 2 := by
    rw [hd2x, hd2z]
    linear_combination 16 * hwsq
  have hsqrt16 : (4 : ℝ) = Real.sqrt 16 := by
    rw [show (16 : ℝ) = 4 ^ 2 by norm_num, Real.sqrt_sq (by norm_num : (0 : ℝ) ≤ 4)]
  have hlen1 : 4 ≤ Vec3.len d1 := by
    unfold Vec3.len
    rw [hn1sq, hsqrt16]
    exact Real.sqrt_le_sqrt (by nlinarith [sq_nonneg d1.y])
  have hlen2 : 4 ≤ Vec3.len d2 := by
    unfold Vec3.len
    rw [hn2sq, hsqrt16]
    exact Real.sqrt_le_sqrt (by nlinarith [sq_nonneg d2.y])
  have hlen1pos : 0 < Vec3.len d1 := by linarith
  have hlen2pos : 0 < Vec3.len d2 := by linarith
  rw [Vec3.normalize_of_len_pos d1 hlen1pos, Vec3.normalize_of_len_pos d2 hlen2pos]
  simp only [Vec3.add, Vec3.smul]
  rw [hd1x, hd1z, hd2x, hd2z]
  have ha : 0 < 1 / Vec3.len d1 := by positivity
  have hb : 0 < 1 / Vec3.len d2 := by positivity
  -- positive inner product of the blend with the final step direction
  have hinner :
      (0.3 * (1 / Vec3.len d1 * (4 * (cursorAt st 50).dir.x)) +
        0.7 * (1 / Vec3.len d2 * (4 * (cursorAt st 51).dir.x))) * (cursorAt st 51).dir.x +
      (0.3 * (1 / Vec3.len d1 * (4 * (cursorAt st 50).dir.z)) +
        0.7 * (1 / Vec3.len d2 * (4 * (cursorAt st 51).dir.z))) * (cursorAt st 51).dir.z =
      1.2 * (1 / Vec3.len d1) *
        Real.cos (curvatureAt st 50 (cursorAt st 50).pos * 0.035) +
      2.8 * (1 / Vec3.len d2) := by
    rw [hwx, hwz]
    linear_combination
      (1.2 * (1 / Vec3.len d1) *
        Real.cos (curvatureAt st 50 (cursorAt st 50).pos * 0.035)) * husq +
      (2.8 * (1 / Vec3.len d2) *
        (Real.sin (curvatureAt st 50 (cursorAt st 50).pos * 0.035) ^ 2 +
         Real.cos (curvatureAt st 50 (cursorAt st 50).pos * 0.035) ^ 2)) * husq +
      (2.8 * (1 / Vec3.len d2)) *
        Real.sin_sq_add_cos_sq (curvatureAt st 50 (cursorAt st 50).pos * 0.035)
  have hIpos :
      0 < (0.3 * (1 / Vec3.len d1 * (4 * (cursorAt st 50).dir.x)) +
        0.7 * (1 / Vec3.len d2 * (4 * (cursorAt st 51).dir.x))) * (cursorAt st 51).dir.x +
      (0.3 * (1 / Vec3.len d1 * (4 * (cursorAt st 50).dir.z)) +
        0.7 * (1 / Vec3.len d2 * (4 * (cursorAt st 51).dir.z))) * (cursorAt st 51).dir.z := by
    rw [hinner]
    nlinarith [ha, hb, hcos]
  set sx := 0.3 * (1 / Vec3.len d1 * (4 * (cursorAt st 50).dir.x)) +
    0.7 * (1 / Vec3.len d2 * (4 * (cursorAt st 51).dir.x)) with hsx
  set sz := 0.3 * (1 / Vec3.len d1 * (4 * (cursorAt st 50).dir.z)) +
    0.7 * (1 / Vec3.len d2 * (4 * (cursorAt st 51).dir.z)) with hsz
  have h2 : (sx * (cursorAt st 51).dir.x + sz * (cursorAt st 51).dir.z) ^ 2 ≤
      (sx ^ 2 + sz ^ 2) * ((cursorAt st 51).dir.x ^ 2 + (cursorAt st 51).dir.z ^ 2) := by
    nlinarith [sq_nonneg (sx * (cursorAt st 51).dir.z - sz * (cursorAt st 51).dir.x)]
  rw [hwsq, mul_one] at h2
  nlinarith [mul_pos hIpos hIpos]

end PathGenerator

/-! ## Claims C2, C10 -/

namespace PathGenerator

/-- The chunk sequence produced by calling `generateChunk` once per id, in
order, threading the generator state. -/
def chunkSeq (g : PathGenState) (ids : List String) : List PathChunk :=
  (ids.foldl
    (fun (acc : List PathChunk × PathGenState) id =>
      ((acc.1 ++ [(generateChunk acc.2 id).1]), (generateChunk acc.2 id).2))
    ([], g)).1

theorem mk_of_ne_zero (s : ℝ) (hs : s ≠ 0) (r : ℝ) :
    mk (some s) r =
      { seed := s, currentDistance := 0, lastDirection := ⟨0, 0, -1⟩,
        lastPosition := ⟨0, 0, 0⟩, difficulty := 0,
        noiseOffsetX := s * 0.001, noiseOffsetZ := s * 0.0013 } := by
  simp [mk, hs]

theorem mk_seed_zero (r : ℝ) :
    mk (some 0) r =
      { seed := r * 1000000, currentDistance := 0, lastDirection := ⟨0, 0, -1⟩,
        lastPosition := ⟨0, 0, 0⟩, difficulty := 0,
        noiseOffsetX := r * 1000000 * 0.001, noiseOffsetZ := r * 1000000 * 0.0013 } := by
  simp [mk]

/-- The banking of the very first generated point, as a function of the
generator state: `|curvature| * 0.1` with the curvature sampled at the
initial cursor position. -/
theorem pointAt_zero_banking (st : PathGenState) :
    (pointAt st 0).banking = |curvatureAt st 0 st.lastPosition| * 0.1 := rfl

theorem curvatureAt_zero (st : PathGenState) (pos : Vec3) :
    curvatureAt st 0 pos = getCurvatureAtWorldPosition st pos := by
  unfold curvatureAt
  norm_num

/-- With effective seed 0 both noise offsets vanish, and the curvature at the
origin is exactly 0 (every summand has a `sin 0` factor). -/
theorem banking_first_point_seed_zero :
    (pointAt (mk (some 0) 0) 0).banking = 0 := by
  rw [pointAt_zero_banking, curvatureAt_zero]
  rw [mk_seed_zero]
  unfold getCurvatureAtWorldPosition
  norm_num

theorem sin_cos_term_pos {a b c : ℝ} (ha0 : 0 < a) (hapi : a < Real.pi)
    (hb0 : 0 ≤ b) (hbpi : b < Real.pi / 2) (hc : 0 < c) :
    0 < Real.sin a * Real.cos b * c :=
  mul_pos (mul_pos (Real.sin_pos_of_pos_of_lt_pi ha0 hapi)
    (Real.cos_pos_of_mem_Ioo ⟨by linarith [Real.pi_pos], hbpi⟩)) hc

/-- With effective seed 1000 (from `Math.random() = 1/1000`), the noise
offsets are `(1, 1.3)` and every curvature summand at the origin is strictly
positive, so the first point's banking is nonzero. -/
theorem banking_first_point_seed_thousand :
    0 < (pointAt (mk (some 0) (1 / 1000)) 0).banking := by
  rw [pointAt_zero_banking, curvatureAt_zero]
  rw [mk_seed_zero]
  unfold getCurvatureAtWorldPosition
  simp only
  have hpi := Real.pi_pos
  have hpi3 := Real.pi_gt_three
  have h1 : (0 : ℝ) <
      Real.sin ((0 + 1 / 1000 * 1000000 * 0.001) * worldCurvatureScale * Real.pi * 2) *
        Real.cos ((0 + 1 / 1000 * 1000000 * 0.0013) * worldCurvatureScale * Real.pi * 2) *
        0.25 := by
    apply sin_cos_term_pos <;>
      first
      | (unfold worldCurvatureScale; nlinarith)
      | norm_num
  have h2 : (0 : ℝ) <
      Real.sin ((0 + 1 / 1000 * 1000000 * 0.001) * worldCurvatureScale * 3.1 * Real.pi * 2) *
        Real.cos ((0 + 1 / 1000 * 1000000 * 0.0013) * worldCurvatureScale * 2.7 * Real.pi * 2) *
        0.15 := by
    apply sin_cos_term_pos <;>
      first
      | (unfold worldCurvatureScale; nlinarith)
      | norm_num
  have h3 : (0 : ℝ) <
      Real.sin ((0 + 1 / 1000 * 1000000 * 0.001) * localVariationScale * 2.1 * Real.pi * 2) *
        Real.cos ((0 + 1 / 1000 * 1000000 * 0.0013) * localVariationScale * 1.8 * Real.pi * 2) *
        0.08 := by
    apply sin_cos_term_pos <;>
      first
      | (unfold localVariationScale; nlinarith)
      | norm_num
  have h4 : (0 : ℝ) <
      Real.sin ((0 + 1 / 1000 * 1000000 * 0.001) * worldCurvatureScale * 4.7 * Real.pi * 2 +
          (0 + 1 / 1000 * 1000000 * 0.0013) * 0.1) * 0.12 := by
    apply mul_pos _ (by norm_num)
    apply Real.sin_pos_of_pos_of_lt_pi <;> (unfold worldCurvatureScale; nlinarith)
  have habs : ∀ x : ℝ, 0 < x → 0 < |x| * 0.1 := fun x hx => by
    rw [abs_of_pos hx]; linarith
  exact habs _ (by linarith)

/-- The two seed-0 constructions (ambient `Math.random()` values `0` and
`1/1000`) produce different first chunks: the first point's banking is `0`
in one run and strictly positive in the other. -/
theorem seed0_runs_points_differ :
    (generateChunk (mk (some 0) 0) "c0").1.points ≠
      (generateChunk (mk (some 0) (1 / 1000)) "c0").1.points := by
  intro h
  have h0 : ((generateChunk (mk (some 0) 0) "c0").1.points)[0]? =
      some (pointAt (mk (some 0) 0) 0) :=
    genPoints_getElem (mk (some 0) 0) 0 (by norm_num)
  have h1 : ((generateChunk (mk (some 0) (1 / 1000)) "c0").1.points)[0]? =
      some (pointAt (mk (some 0) (1 / 1000)) 0) :=
    genPoints_getElem (mk (some 0) (1 / 1000)) 0 (by norm_num)
  rw [h, h1, Option.some.injEq] at h0
  have hb := congrArg PathPoint.banking h0
  rw [banking_first_point_seed_zero] at hb
  linarith [banking_first_point_seed_thousand]

end PathGenerator

/-- Claim C2 (amended): for a fixed explicitly supplied NONZERO seed, two
independent `PathGenerator` instances produce bit-for-bit identical chunk
sequences under the same sequence of `generateChunk` calls, whatever ambient
`Math.random()` values their constructors observe.  (For the explicit seed
`0` the `seed || Math.random() * 1000000` fallback makes the path depend on
`Math.random()`; see the counterexample.) -/
theorem generateChunk_deterministic_of_seed_ne_zero (s : ℝ) (hs : s ≠ 0)
    (r1 r2 : ℝ) (ids : List String) :
    PathGenerator.chunkSeq (PathGenerator.mk (some s) r1) ids =
      PathGenerator.chunkSeq (PathGenerator.mk (some s) r2) ids := by
  have h : PathGenerator.mk (some s) r1 = PathGenerator.mk (some s) r2 := by
    rw [PathGenerator.mk_of_ne_zero s hs r1, PathGenerator.mk_of_ne_zero s hs r2]
  rw [h]

/-- Witness for C2 (amended): seed 42, two runs with different ambient
randomness, two chunks each. -/
theorem generateChunk_deterministic_witness :
    PathGenerator.chunkSeq (PathGenerator.mk (some 42) 0) ["c0", "c1"] =
      PathGenerator.chunkSeq (PathGenerator.mk (some 42) (1 / 2)) ["c0", "c1"] :=
  generateChunk_deterministic_of_seed_ne_zero 42 (by norm_num) 0 (1 / 2) ["c0", "c1"]

/-- Counterexample to C2 as stated: the seed `0` IS an explicitly supplied
seed, yet two independent instances constructed with it (whose constructors
observe the ambient `Math.random()` values `0` and `1/1000` respectively)
produce different point sequences already in their first chunk. -/
theorem seed_zero_breaks_determinism_cex :
    (PathGenerator.generateChunk (PathGenerator.mk (some 0) 0) "c0").1.points ≠
      (PathGenerator.generateChunk (PathGenerator.mk (some 0) (1 / 1000)) "c0").1.points :=
  PathGenerator.seed0_runs_points_differ

/-- Claim C10: constructing `PathGenerator` with the explicit seed value `0`
does not use seed `0`: the falsy-coalescing `seed || Math.random() * 1000000`
substitutes `Math.random() * 1000000` as the seed, and consequently two
independently constructed seed-0 generators (observing different ambient
`Math.random()` values) are not guaranteed to produce the same path — their
very first chunks can differ. -/
theorem seed_zero_falsy_substitution :
    (∀ r : ℝ, (PathGenerator.mk (some 0) r).seed = r * 1000000) ∧
    (PathGenerator.generateChunk (PathGenerator.mk (some 0) 0) "c0").1.points ≠
      (PathGenerator.generateChunk (PathGenerator.mk (some 0) (1 / 1000)) "c0").1.points :=
  ⟨fun r => by rw [PathGenerator.mk_seed_zero], PathGenerator.seed0_runs_points_differ⟩

/-! ## Claim C1 -/

/-- The fresh generator of the spec's scenario: explicit seed 42 (the ambient
`Math.random()` value is irrelevant for a nonzero explicit seed). -/
def gen42 : PathGenState := PathGenerator.mk (some 42) 0

/-- Claim C1 (amended): the generation cursor is carried across chunks
exactly — chunk A's `endPosition` IS the cursor position entering chunk B's
generation — but chunk B's `startPosition` is that cursor advanced by one
generation step (the loop moves the cursor before emitting each point), so
the two are not equal in general. -/
theorem consecutive_chunks_cursor_coincidence (st : PathGenState) (id1 id2 : String) :
    (PathGenerator.generateChunk st id1).1.endPosition =
      (PathGenerator.generateChunk st id1).2.lastPosition ∧
    (PathGenerator.generateChunk (PathGenerator.generateChunk st id1).2 id2).1.startPosition =
      (PathGenerator.cursorStep (PathGenerator.generateChunk st id1).2 0
        ⟨(PathGenerator.generateChunk st id1).2.lastPosition,
         (PathGenerator.generateChunk st id1).2.lastDirection⟩).pos := by
  constructor
  · rw [PathGenerator.generateChunk_endPosition, PathGenerator.generateChunk_lastPosition]
  · rw [PathGenerator.generateChunk_startPosition]
    rfl

/-- Counterexample to C1 as stated: for the fresh seed-42 generator, the
first chunk's `endPosition` is NOT equal to the second chunk's
`startPosition` — the latter lies one loop step (4 world units horizontally)
beyond the former. -/
theorem consecutive_chunks_endpoints_differ :
    (PathGenerator.generateChunk gen42 "c0").1.endPosition ≠
      (PathGenerator.generateChunk (PathGenerator.generateChunk gen42 "c0").2 "c1").1.startPosition := by
  intro heq
  have hld : gen42.lastDirection = ⟨0, 0, -1⟩ := by
    show (PathGenerator.mk (some 42) 0).lastDirection = _
    rw [PathGenerator.mk_of_ne_zero 42 (by norm_num) 0]
  have hy : gen42.lastDirection.y = 0 := by rw [hld]
  have hxz : gen42.lastDirection.x ^ 2 + gen42.lastDirection.z ^ 2 = 1 := by
    rw [hld]; norm_num
  have hb := PathGenerator.lastDirection_xz_sq_pos gen42 hy hxz "c0"
  rw [PathGenerator.generateChunk_endPosition,
    PathGenerator.generateChunk_startPosition] at heq
  have hlp := PathGenerator.generateChunk_lastPosition gen42 "c0"
  rw [← hlp] at heq
  -- coordinates of the first point of the second chunk: one step past the cursor
  have hpx : (PathGenerator.pointAt (PathGenerator.generateChunk gen42 "c0").2 0).position.x =
      (PathGenerator.generateChunk gen42 "c0").2.lastPosition.x +
        PathGenerator.segmentLength *
        (Vec3.normalize (Vec3.applyAxisAngleY
          (PathGenerator.curvatureAt (PathGenerator.generateChunk gen42 "c0").2 0
            (PathGenerator.generateChunk gen42 "c0").2.lastPosition * 0.035)
          (PathGenerator.generateChunk gen42 "c0").2.lastDirection)).x := rfl
  have hpz : (PathGenerator.pointAt (PathGenerator.generateChunk gen42 "c0").2 0).position.z =
      (PathGenerator.generateChunk gen42 "c0").2.lastPosition.z +
        PathGenerator.segmentLength *
        (Vec3.normalize (Vec3.applyAxisAngleY
          (PathGenerator.curvatureAt (PathGenerator.generateChunk gen42 "c0").2 0
            (PathGenerator.generateChunk gen42 "c0").2.lastPosition * 0.035)
          (PathGenerator.generateChunk gen42 "c0").2.lastDirection)).z := rfl
  have hx := congrArg Vec3.x heq
  have hz := congrArg Vec3.z heq
  rw [hpx, PathGenerator.segmentLength_eq] at hx
  rw [hpz, PathGenerator.segmentLength_eq] at hz
  have hdx : (Vec3.normalize (Vec3.applyAxisAngleY
      (PathGenerator.curvatureAt (PathGenerator.generateChunk gen42 "c0").2 0
        (PathGenerator.generateChunk gen42 "c0").2.lastPosition * 0.035)
      (PathGenerator.generateChunk gen42 "c0").2.lastDirection)).x = 0 := by linarith
  have hdz : (Vec3.normalize (Vec3.applyAxisAngleY
      (PathGenerator.curvatureAt (PathGenerator.generateChunk gen42 "c0").2 0
        (PathGenerator.generateChunk gen42 "c0").2.lastPosition * 0.035)
      (PathGenerator.generateChunk gen42 "c0").2.lastDirection)).z = 0 := by linarith
  have hrot := Vec3.applyAxisAngleY_xz_sq
    (PathGenerator.curvatureAt (PathGenerator.generateChunk gen42 "c0").2 0
      (PathGenerator.generateChunk gen42 "c0").2.lastPosition * 0.035)
    (PathGenerator.generateChunk gen42 "c0").2.lastDirection
  have hpos := Vec3.normalize_xz_sq_pos
    (Vec3.applyAxisAngleY
      (PathGenerator.curvatureAt (PathGenerator.generateChunk gen42 "c0").2 0
        (PathGenerator.generateChunk gen42 "c0").2.lastPosition * 0.035)
      (PathGenerator.generateChunk gen42 "c0").2.lastDirection)
    (by rw [hrot]; exact hb)
  rw [hdx, hdz] at hpos
  norm_num at hpos

/-! ## Claim C3 -/

namespace ChunkManager

theorem enforceMemoryLimits_le (m : List (String × PathChunk)) :
    (enforceMemoryLimits m).length ≤ maxActiveChunks := by
  induction m using enforceMemoryLimits.induct with
  | case1 m h =>
    rw [enforceMemoryLimits, if_pos h]
    exact h
  | case2 m h p hp ih =>
    rw [enforceMemoryLimits, if_neg h, hp]
    exact ih
  | case3 m h hp =>
    exfalso
    have hne : m ≠ [] := by
      intro he
      exact h (by simp [he, maxActiveChunks])
    have := furthestFromOrigin_isSome m hne
    rw [hp] at this
    exact absurd this (by simp)

theorem mapSet_length_le (m : List (String × PathChunk)) (k : String) (v : PathChunk) :
    (mapSet m k v).length ≤ m.length + 1 := by
  unfold mapSet
  split
  · rw [List.length_map]; omega
  · rw [List.length_append]; simp

theorem generateNextChunk_count_le (s : ChunkManagerState) :
    (generateNextChunk s).activeChunks.length ≤ s.activeChunks.length + 1 :=
  mapSet_length_le _ _ _

theorem update_count_le (pos : Vec3) (s : ChunkManagerState) :
    (update pos s).activeChunks.length ≤ maxActiveChunks :=
  enforceMemoryLimits_le _

end ChunkManager

/-- Claim C3: after `initialize()` followed by any sequence of `update(pos)`
calls (so, in particular, after each call of any such sequence), the
resident chunk count never exceeds `maxActiveChunks`. -/
theorem chunkManager_resident_count_le_max (g : PathGenState) (ps : List Vec3) :
    ((ps.foldl (fun s p => ChunkManager.update p s)
        (ChunkManager.initChunks (ChunkManager.mk g))).activeChunks.length ≤
      ChunkManager.maxActiveChunks) := by
  have hinit : (ChunkManager.initChunks (ChunkManager.mk g)).activeChunks.length ≤
      ChunkManager.maxActiveChunks := by
    unfold ChunkManager.initChunks
    have h0 : (ChunkManager.mk g).activeChunks.length = 0 := rfl
    have h1 := ChunkManager.generateNextChunk_count_le (ChunkManager.mk g)
    have h2 := ChunkManager.generateNextChunk_count_le
      (ChunkManager.generateNextChunk (ChunkManager.mk g))
    have h3 := ChunkManager.generateNextChunk_count_le
      (ChunkManager.generateNextChunk (ChunkManager.generateNextChunk (ChunkManager.mk g)))
    unfold ChunkManager.maxActiveChunks
    omega
  induction ps generalizing g with
  | nil => exact hinit
  | cons p ps ih =>
    show ((ps.foldl (fun s p => ChunkManager.update p s)
        (ChunkManager.update p (ChunkManager.initChunks (ChunkManager.mk g)))).activeChunks.length
      ≤ ChunkManager.maxActiveChunks)
    have haux : ∀ (l : List Vec3) (s : ChunkManagerState),
        s.activeChunks.length ≤ ChunkManager.maxActiveChunks →
        ((l.foldl (fun s p => ChunkManager.update p s) s).activeChunks.length ≤
          ChunkManager.maxActiveChunks) := by
      intro l
      induction l with
      | nil => intro s hs; exact hs
      | cons q l ihl =>
        intro s _
        exact ihl (ChunkManager.update q s) (ChunkManager.update_count_le q s)
    exact haux ps _ (ChunkManager.update_count_le p _)

end
